import Mathlib

/-!
Verification of the pool-lights firmware (DS3231.h and its polling sketch).

The development shallowly embeds the C code: `byte`/`uint8_t` values are
naturals taken mod 256, C `int` is `Int` (with explicit 32-bit semantics for
the bitwise operators), `unsigned long` millisecond counters are naturals
taken mod 2^32, the exact `double` arithmetic of the temperature decode is
carried out in `ℚ`, and the I2C (Wire) traffic is recorded as a trace of
bus events threaded through a small explicit state.
-/

/-! ## Machine-integer helpers -/

/-- Conversion of a C `int` value to `byte`/`uint8_t`: reduce mod 256. -/
def byteOfInt (x : Int) : Nat := (x.emod 256).toNat

/-- The 32-bit two's-complement bit pattern of a C `int` value. -/
def bits32 (x : Int) : Nat := (x.emod (2 ^ 32)).toNat

/-- The C `int` value denoted by a 32-bit two's-complement bit pattern. -/
def ofBits32 (n : Nat) : Int := if n < 2 ^ 31 then (n : Int) else (n : Int) - 2 ^ 32

/-- C bitwise `&` on 32-bit `int`. -/
def c_and32 (a b : Int) : Int := ofBits32 (Nat.land (bits32 a) (bits32 b))

/-- C bitwise `|` on 32-bit `int`. -/
def c_or32 (a b : Int) : Int := ofBits32 (Nat.lor (bits32 a) (bits32 b))

/-- C bitwise `~` on 32-bit `int` (complement of the bit pattern). -/
def c_not32 (a : Int) : Int := ofBits32 (2 ^ 32 - 1 - bits32 a)

/-- C `>>` on `int` (gcc: arithmetic shift, i.e. flooring division by 2^k). -/
def c_sar (a : Int) (k : Nat) : Int := Int.fdiv a (2 ^ k)

/-- Conversion of a C `int` value to `int8_t` (gcc: wraps mod 256 into [-128,127]). -/
def int8OfInt (x : Int) : Int := (x + 128).emod 256 - 128

/-- `unsigned long` subtraction `a - b` (32-bit wraparound). -/
def wsub32 (a b : Nat) : Nat := (a % 2 ^ 32 + (2 ^ 32 - b % 2 ^ 32)) % 2 ^ 32

/-- Truncation of an exact rational toward zero, the rounding a C cast from
`double` to an integer type performs. -/
def ratTrunc (q : ℚ) : Int := Int.tdiv q.num (q.den : Int)

/-- The C cast `(byte)` applied to a `double` holding the exact value `q`:
truncation toward zero, wrapped into an unsigned byte. -/
def byteOfRat (q : ℚ) : Nat := ((ratTrunc q).emod 256).toNat

/-! ## DS3231.h: BCD conversion -/

def DS3231_I2C_ADDRESS : Nat := 0x68
def DS3231_TEMPERATURE_ADDR : Nat := 0x11

/-- `byte decToBcd(byte val)`: `(val / 10 * 16) + (val % 10)`.
The `% 256` on the input models the `byte` parameter, the one on the
result the `byte` return type. -/
def decToBcd (val : Nat) : Nat := (val % 256 / 10 * 16 + val % 256 % 10) % 256

/-- `byte bcdToDec(byte val)`: `(val / 16 * 10) + (val % 16)`. -/
def bcdToDec (val : Nat) : Nat := (val % 256 / 16 * 10 + val % 256 % 16) % 256

/-! ## Wire (I2C) model

Each Wire call is modelled as a function on a small state that records the
sequence of bus events and holds the receive buffer filled by
`requestFrom`.  `read` on an empty buffer returns `-1`, as the Arduino
Wire library does. -/

inductive WireEv where
  | beginTx (addr : Nat)
  | writeB (b : Nat)
  | endTx
  | reqFrom (addr : Nat) (n : Nat)
  | readEv
deriving DecidableEq

structure WireSt where
  evs : List WireEv
  buf : List Nat
deriving DecidableEq

def wireBeginTransmission (addr : Nat) (s : WireSt) : WireSt :=
  { s with evs := s.evs ++ [WireEv.beginTx addr] }

def wireWrite (b : Nat) (s : WireSt) : WireSt :=
  { s with evs := s.evs ++ [WireEv.writeB (b % 256)] }

def wireEndTransmission (s : WireSt) : WireSt :=
  { s with evs := s.evs ++ [WireEv.endTx] }

/-- `Wire.requestFrom(addr, n)`: record the request and fill the receive
buffer with the (at most `n`) bytes the device answers with. -/
def wireRequestFrom (addr n : Nat) (dev : List Nat) (s : WireSt) : WireSt :=
  { evs := s.evs ++ [WireEv.reqFrom addr n], buf := (dev.take n).map fun b => b % 256 }

/-- `Wire.read()`: pop one byte from the receive buffer, `-1` when empty. -/
def wireRead (s : WireSt) : Int × WireSt :=
  match s.buf with
  | [] => (-1, { s with evs := s.evs ++ [WireEv.readEv] })
  | b :: rest => ((b : Int), { evs := s.evs ++ [WireEv.readEv], buf := rest })

/-! ## DS3231.h: time and temperature transactions -/

/-- `setDS3231time`: the trace of bus events the function produces. -/
def setDS3231time (second minute hour dayOfWeek dayOfMonth month year : Nat) : WireSt :=
  let s := wireBeginTransmission DS3231_I2C_ADDRESS { evs := [], buf := [] }
  let s := wireWrite 0 s
  let s := wireWrite (decToBcd second) s
  let s := wireWrite (decToBcd minute) s
  let s := wireWrite (decToBcd hour) s
  let s := wireWrite (decToBcd dayOfWeek) s
  let s := wireWrite (decToBcd dayOfMonth) s
  let s := wireWrite (decToBcd month) s
  let s := wireWrite (decToBcd year) s
  wireEndTransmission s

structure TimeFields where
  second : Nat
  minute : Nat
  hour : Nat
  dayOfWeek : Nat
  dayOfMonth : Nat
  month : Nat
  year : Nat
deriving DecidableEq

/-- `readDS3231time`, parameterised by the bytes the device answers with:
the seven decoded output fields together with the bus-event trace. -/
def readDS3231time (dev : List Nat) : TimeFields × WireSt :=
  let s := wireBeginTransmission DS3231_I2C_ADDRESS { evs := [], buf := [] }
  let s := wireWrite 0 s
  let s := wireEndTransmission s
  let s := wireRequestFrom DS3231_I2C_ADDRESS 7 dev s
  let (r0, s) := wireRead s
  let (r1, s) := wireRead s
  let (r2, s) := wireRead s
  let (r3, s) := wireRead s
  let (r4, s) := wireRead s
  let (r5, s) := wireRead s
  let (r6, s) := wireRead s
  (⟨bcdToDec (byteOfInt (c_and32 r0 0x7f)),
    bcdToDec (byteOfInt r1),
    bcdToDec (byteOfInt (c_and32 r2 0x3f)),
    bcdToDec (byteOfInt r3),
    bcdToDec (byteOfInt r4),
    bcdToDec (byteOfInt r5),
    bcdToDec (byteOfInt r6)⟩, s)

/-- `readDS3231temperature`, parameterised by the two raw bytes the device
answers with: the stored `byte` together with the bus-event trace.
The `double` expression `0.25 * temp_lsb + nint` is exact, so it is
computed in `ℚ`; `~((1 << 8) - 1)` is the 32-bit complement of 255. -/
def readDS3231temperature (dev : List Nat) : Nat × WireSt :=
  let s := wireBeginTransmission DS3231_I2C_ADDRESS { evs := [], buf := [] }
  let s := wireWrite DS3231_TEMPERATURE_ADDR s
  let s := wireEndTransmission s
  let s := wireRequestFrom DS3231_I2C_ADDRESS 2 dev s
  let (r0, s) := wireRead s
  let (r1, s) := wireRead s
  let temp_msb : Nat := byteOfInt r0
  let temp_lsb : Nat := byteOfInt (c_sar r1 6)
  let nint : Int :=
    if c_and32 (temp_msb : Int) 0x80 ≠ 0 then
      int8OfInt (c_or32 (temp_msb : Int) (c_not32 ((1 <<< 8 : Nat) - 1 : Nat)))
    else
      int8OfInt (temp_msb : Int)
  (byteOfRat ((1 / 4 : ℚ) * (temp_lsb : ℚ) + (nint : ℚ)), s)

/-- The temperature value exactly as claim C5 words it: the msb read as a
two's-complement signed 8-bit integer, plus 0.25 degree per unit of the
top two bits of the lsb, truncated into an unsigned byte. -/
def tempSpec (msb lsb : Nat) : Nat :=
  byteOfRat (((if msb < 128 then (msb : Int) else (msb : Int) - 256) : ℚ)
    + ((lsb >>> 6 : Nat) : ℚ) * (1 / 4))

structure SysTime where
  hour : Nat
  minute : Nat
  second : Nat
  day : Nat
  month : Nat
  year : Nat
deriving DecidableEq

/-- The Time-library call `setTime(hr, min, sec, day, month, year)`,
modelled as building the system-time record it sets. -/
def setTimeSys (hr mn sc dy mo yr : Nat) : SysTime := ⟨hr, mn, sc, dy, mo, yr⟩

/-- `updateTime`: read the RTC and set the system time, with the year
offset by 2000. -/
def updateTime (dev : List Nat) : SysTime :=
  let t := (readDS3231time dev).1
  setTimeSys t.hour t.minute t.second t.dayOfMonth t.month (2000 + t.year)

/-! ## The debounce section of loop()

Each loop iteration reads the button (`analogRead`) once and calls
`millis()` twice in the debounce code: at the timer reset (line 220) and
in the gate comparison (line 223).  An iteration's input is therefore a
triple (reading, t1, t2) of the sampled values.  The globals are
`ledState = HIGH`, `lastButtonState = LOW`, `lastDebounceTime = 0`, and
`buttonState`, which is an uninitialised (hence zero-initialised) global. -/

def HIGH : Int := 1

def debounceDelay : Nat := 1000

structure DbState where
  lastButtonState : Int
  buttonState : Int
  ledState : Int
  lastDebounceTime : Nat
deriving DecidableEq

def dbInitState : DbState :=
  { lastButtonState := 0, buttonState := 0, ledState := HIGH, lastDebounceTime := 0 }

/-- C logical negation `!` on `int`. -/
def cNot (x : Int) : Int := if x = 0 then 1 else 0

/-- One execution of the debounce section of loop() (lines 218-235 plus
the `lastButtonState = reading` save at line 277): `reading` is the
`analogRead` result, `t1` the value of `millis()` at line 220, `t2` its
value at line 223. -/
def debounceStep (s : DbState) (reading : Int) (t1 t2 : Nat) : DbState :=
  let ldt : Nat := if reading ≠ s.lastButtonState then t1 % 2 ^ 32 else s.lastDebounceTime
  let s2 : DbState :=
    if wsub32 t2 ldt > debounceDelay then
      if reading ≠ s.buttonState then
        let buttonState := reading
        if buttonState = HIGH then
          { s with buttonState := buttonState, ledState := cNot s.ledState, lastDebounceTime := ldt }
        else
          { s with buttonState := buttonState, lastDebounceTime := ldt }
      else
        { s with lastDebounceTime := ldt }
    else
      { s with lastDebounceTime := ldt }
  { s2 with lastButtonState := reading }

def dbReading (input : Nat → Int × Nat × Nat) (n : Nat) : Int := (input n).1

def dbT1 (input : Nat → Int × Nat × Nat) (n : Nat) : Nat := (input n).2.1

def dbT2 (input : Nat → Int × Nat × Nat) (n : Nat) : Nat := (input n).2.2

/-- The debounce state after `n` loop iterations on the input stream
`input` of (reading, t1, t2) triples. -/
def dbTrace (input : Nat → Int × Nat × Nat) : Nat → DbState
  | 0 => dbInitState
  | n + 1 => debounceStep (dbTrace input n) (dbReading input n) (dbT1 input n) (dbT2 input n)

/-- The ledState latch toggles at iteration `n`. -/
def TogglesAt (input : Nat → Int × Nat × Nat) (n : Nat) : Prop :=
  (dbTrace input (n + 1)).ledState ≠ (dbTrace input n).ledState

/-- The key invariant tying a past toggle time `T` to the debounce
timer: once the accepted button state has left HIGH, a raw reading of
HIGH can only have been observed after a timer reset at or after `T`. -/
def DbJ (s : DbState) (T : Nat) : Prop :=
  s.buttonState ≠ HIGH → s.lastButtonState = HIGH → T ≤ s.lastDebounceTime

/-- A concrete input stream: three HIGH samples then three LOW samples,
alternating, one sample every 800 ms. -/
def dbWitnessInput : Nat → Int × Nat × Nat :=
  fun n => (if n % 6 < 3 then 1 else 0, 2000 + 800 * n, 2000 + 800 * n)

/-! ## The chase-animation branch of loop()

The branch guarded by `(millis() - chLastTime) > chDelay` updates the
four globals `chLed`, `chStep`, `chDelay`, `chRound`; `chLastTime` does
not influence them and is omitted from the state. -/

def NUM_LEDS : Int := 12

structure AnimState where
  chLed : Int
  chStep : Int
  chDelay : Int
  chRound : Int
deriving DecidableEq

/-- The globals' initialisers: `chStep = 1`, `chLed = 0`, `chDelay = 20`,
`chRound = 0`. -/
def chInitState : AnimState := { chLed := 0, chStep := 1, chDelay := 20, chRound := 0 }

/-- One execution of the animation-step branch body (lines 252-269). -/
def animStep (s : AnimState) : AnimState :=
  let s1 :=
    if s.chLed > NUM_LEDS - 2 ∨ s.chLed < 0 then
      let chRound := s.chRound + 1
      let chLed := if s.chLed > NUM_LEDS - 1 then -1 else NUM_LEDS - 1
      if chRound > 20 then
        { chLed := chLed, chStep := -s.chStep,
          chDelay := if s.chDelay < 2000 then s.chDelay + 20 else 20, chRound := 0 }
      else
        { s with chLed := chLed, chRound := chRound }
    else s
  if s1.chLed + s1.chStep < NUM_LEDS ∧ s1.chLed + s1.chStep ≥ 0 then
    { s1 with chLed := s1.chLed + s1.chStep }
  else
    { s1 with chLed := if s1.chStep > 0 then 0 else NUM_LEDS - 1 }

/-- The animation state after `n` executions of the branch. -/
def animIter : Nat → AnimState
  | 0 => chInitState
  | n + 1 => animStep (animIter n)

/-- The inductive invariant of the animation: the LED index stays in
[0, 11] and the step is ±1. -/
def AnimInv (s : AnimState) : Prop :=
  0 ≤ s.chLed ∧ s.chLed ≤ 11 ∧ (s.chStep = 1 ∨ s.chStep = -1)

/-- The delay invariant: a multiple of 20 in [20, 2000]. -/
def DelayInv (d : Int) : Prop := 20 ≤ d ∧ d ≤ 2000 ∧ 20 ∣ d

/-! ## Theorems: BCD conversion -/

/-- Claim C1: for every decimal value d in [0,99], decoding the BCD
encoding of d gives back d. -/
theorem bcd_roundtrip (d : Nat) (hd : d ≤ 99) : bcdToDec (decToBcd d) = d := by
  revert hd
  revert d
  decide

theorem bcd_roundtrip_witness : 57 ≤ 99 ∧ bcdToDec (decToBcd 57) = 57 :=
  ⟨by decide, bcd_roundtrip 57 (by decide)⟩

/-- Claim C7: decToBcd 34 = 0x34 and bcdToDec 0x52 = 52. -/
theorem bcd_scenarios : decToBcd 34 = 0x34 ∧ bcdToDec 0x52 = 52 := by
  decide

/-! ## Theorems: chase animation -/

theorem animStep_inv (s : AnimState) (h : AnimInv s) : AnimInv (animStep s) := by
  obtain ⟨h1, h2, h3⟩ := h
  unfold animStep AnimInv NUM_LEDS
  rcases h3 with h3 | h3 <;> simp only [h3] <;> split_ifs <;> simp_all <;> omega

theorem animIter_inv (n : Nat) : AnimInv (animIter n) := by
  induction n with
  | zero =>
    unfold animIter chInitState AnimInv
    decide
  | succ n ih => exact animStep_inv _ ih

/-- Claim C2: starting from the initial animation state (chLed = 0,
chStep = 1, chRound = 0), the chase LED index chLed remains within
[0, 11] after any number of executions of the animation-step branch of
loop(). -/
theorem chLed_in_range (n : Nat) : 0 ≤ (animIter n).chLed ∧ (animIter n).chLed ≤ 11 :=
  ⟨(animIter_inv n).1, (animIter_inv n).2.1⟩

/-- Claim C3 counterexample: after exactly 20 round trips of the chase
(the round counter chRound reaches 20 at animation step 240), the
direction has not inverted (chStep is still 1) and the delay is
unchanged (chDelay is still 20), contrary to the claim. -/
theorem animIter_succ (n : Nat) : animIter (n + 1) = animStep (animIter n) := rfl

/-- One interior advance of an upward sweep. -/
theorem animStep_fwd (a r : Int) (h0 : 0 ≤ a) (h1 : a ≤ 10) :
    animStep ⟨a, 1, 20, r⟩ = ⟨a + 1, 1, 20, r⟩ := by
  unfold animStep NUM_LEDS
  split_ifs <;> simp_all [AnimState.mk.injEq] <;> omega

/-- The boundary step of an upward sweep when fewer than 21 round trips
are complete: the round counter increments and the index wraps to 0. -/
theorem animStep_wrap (r : Int) (h20 : r ≤ 19) :
    animStep ⟨11, 1, 20, r⟩ = ⟨0, 1, 20, r + 1⟩ := by
  have h : ¬ (r + 1 > 20) := by omega
  simp only [animStep, NUM_LEDS]
  norm_num [h]

/-- A full upward round trip: 12 branch executions bring the index back
to 0 with the round counter incremented. -/
theorem animIter_lap (n : Nat) (r : Int) (h : animIter n = ⟨0, 1, 20, r⟩) (h20 : r ≤ 19) :
    animIter (n + 12) = ⟨0, 1, 20, r + 1⟩ := by
  have e1 : animIter (n + 1) = ⟨1, 1, 20, r⟩ := by
    rw [animIter_succ, h, animStep_fwd] <;> norm_num
  have e2 : animIter (n + 2) = ⟨2, 1, 20, r⟩ := by
    rw [show n + 2 = (n + 1) + 1 from rfl, animIter_succ, e1, animStep_fwd] <;> norm_num
  have e3 : animIter (n + 3) = ⟨3, 1, 20, r⟩ := by
    rw [show n + 3 = (n + 2) + 1 from rfl, animIter_succ, e2, animStep_fwd] <;> norm_num
  have e4 : animIter (n + 4) = ⟨4, 1, 20, r⟩ := by
    rw [show n + 4 = (n + 3) + 1 from rfl, animIter_succ, e3, animStep_fwd] <;> norm_num
  have e5 : animIter (n + 5) = ⟨5, 1, 20, r⟩ := by
    rw [show n + 5 = (n + 4) + 1 from rfl, animIter_succ, e4, animStep_fwd] <;> norm_num
  have e6 : animIter (n + 6) = ⟨6, 1, 20, r⟩ := by
    rw [show n + 6 = (n + 5) + 1 from rfl, animIter_succ, e5, animStep_fwd] <;> norm_num
  have e7 : animIter (n + 7) = ⟨7, 1, 20, r⟩ := by
    rw [show n + 7 = (n + 6) + 1 from rfl, animIter_succ, e6, animStep_fwd] <;> norm_num
  have e8 : animIter (n + 8) = ⟨8, 1, 20, r⟩ := by
    rw [show n + 8 = (n + 7) + 1 from rfl, animIter_succ, e7, animStep_fwd] <;> norm_num
  have e9 : animIter (n + 9) = ⟨9, 1, 20, r⟩ := by
    rw [show n + 9 = (n + 8) + 1 from rfl, animIter_succ, e8, animStep_fwd] <;> norm_num
  have e10 : animIter (n + 10) = ⟨10, 1, 20, r⟩ := by
    rw [show n + 10 = (n + 9) + 1 from rfl, animIter_succ, e9, animStep_fwd] <;> norm_num
  have e11 : animIter (n + 11) = ⟨11, 1, 20, r⟩ := by
    rw [show n + 11 = (n + 10) + 1 from rfl, animIter_succ, e10, animStep_fwd] <;> norm_num
  rw [show n + 12 = (n + 11) + 1 from rfl, animIter_succ, e11, animStep_wrap _ h20]

theorem animIter_12k (k : Nat) (hk : k ≤ 20) : animIter (12 * k) = ⟨0, 1, 20, (k : Int)⟩ := by
  induction k with
  | zero => rfl
  | succ k ih =>
    have e := animIter_lap (12 * k) (k : Int) (ih (by omega))
      (by exact_mod_cast by omega : (k : Int) ≤ 19)
    rw [show 12 * (k + 1) = 12 * k + 12 by ring, e]
    norm_num

theorem anim240 : animIter 240 = ⟨0, 1, 20, 20⟩ := by
  have h := animIter_12k 20 (by omega)
  norm_num at h
  exact h

theorem anim241 : animIter 241 = ⟨1, 1, 20, 20⟩ := by
  rw [show (241 : Nat) = 240 + 1 from rfl, animIter_succ, anim240]
  decide

theorem anim242 : animIter 242 = ⟨2, 1, 20, 20⟩ := by
  rw [show (242 : Nat) = 241 + 1 from rfl, animIter_succ, anim241]
  decide

theorem anim243 : animIter 243 = ⟨3, 1, 20, 20⟩ := by
  rw [show (243 : Nat) = 242 + 1 from rfl, animIter_succ, anim242]
  decide

theorem anim244 : animIter 244 = ⟨4, 1, 20, 20⟩ := by
  rw [show (244 : Nat) = 243 + 1 from rfl, animIter_succ, anim243]
  decide

theorem anim245 : animIter 245 = ⟨5, 1, 20, 20⟩ := by
  rw [show (245 : Nat) = 244 + 1 from rfl, animIter_succ, anim244]
  decide

theorem anim246 : animIter 246 = ⟨6, 1, 20, 20⟩ := by
  rw [show (246 : Nat) = 245 + 1 from rfl, animIter_succ, anim245]
  decide

theorem anim247 : animIter 247 = ⟨7, 1, 20, 20⟩ := by
  rw [show (247 : Nat) = 246 + 1 from rfl, animIter_succ, anim246]
  decide

theorem anim248 : animIter 248 = ⟨8, 1, 20, 20⟩ := by
  rw [show (248 : Nat) = 247 + 1 from rfl, animIter_succ, anim247]
  decide

theorem anim249 : animIter 249 = ⟨9, 1, 20, 20⟩ := by
  rw [show (249 : Nat) = 248 + 1 from rfl, animIter_succ, anim248]
  decide

theorem anim250 : animIter 250 = ⟨10, 1, 20, 20⟩ := by
  rw [show (250 : Nat) = 249 + 1 from rfl, animIter_succ, anim249]
  decide

theorem anim251 : animIter 251 = ⟨11, 1, 20, 20⟩ := by
  rw [show (251 : Nat) = 250 + 1 from rfl, animIter_succ, anim250]
  decide

theorem anim252 : animIter 252 = ⟨10, -1, 40, 0⟩ := by
  rw [show (252 : Nat) = 251 + 1 from rfl, animIter_succ, anim251]
  decide

/-- Claim C3 counterexample: after exactly 20 round trips of the chase
(the round counter chRound reaches 20 at animation step 240), the
direction has not inverted (chStep is still 1) and the delay is
unchanged (chDelay is still 20), contrary to the claim. -/
theorem no_reversal_after_20_round_trips :
    (animIter 240).chRound = 20 ∧ (animIter 240).chStep = 1 ∧ (animIter 240).chDelay = 20 := by
  rw [anim240]
  decide

/-- Claim C3 (amended): the reversal fires when the round counter
exceeds 20, i.e. on completion of the 21st round trip, not the 20th:
from the initial state (delay 20 ms, direction +1), at animation step
251 the direction is still +1 and the delay still 20 ms, and at step 252
the first reversal yields direction -1, delay 40 ms and a reset round
counter. -/
theorem first_reversal_at_21_round_trips :
    (animIter 251).chStep = 1 ∧ (animIter 251).chDelay = 20 ∧
    (animIter 252).chStep = -1 ∧ (animIter 252).chDelay = 40 ∧
    (animIter 252).chRound = 0 := by
  rw [anim251, anim252]
  decide

theorem animStep_delay (s : AnimState) (h : DelayInv s.chDelay) :
    DelayInv (animStep s).chDelay := by
  obtain ⟨h1, h2, h3⟩ := h
  unfold animStep DelayInv
  simp only [apply_ite AnimState.chDelay]
  split_ifs <;> simp_all <;> omega

theorem animIter_delay (n : Nat) : DelayInv (animIter n).chDelay := by
  induction n with
  | zero =>
    unfold animIter chInitState DelayInv
    decide
  | succ n ih => exact animStep_delay _ ih

/-- Claim C4: the animation delay chDelay is always a multiple of 20 in
[20, 2000]; the reversal update (chDelay + 20 when chDelay < 2000, reset
to 20 otherwise) preserves this from the initial value 20. -/
theorem chDelay_bounded_multiple (n : Nat) :
    20 ≤ (animIter n).chDelay ∧ (animIter n).chDelay ≤ 2000 ∧ 20 ∣ (animIter n).chDelay :=
  animIter_delay n

/-! ## Theorems: I2C transactions -/

theorem decToBcd_lt (v : Nat) : decToBcd v < 256 := Nat.mod_lt _ (by norm_num)

theorem decToBcd_mod (v : Nat) : decToBcd v % 256 = decToBcd v :=
  Nat.mod_eq_of_lt (decToBcd_lt v)

/-- The receive buffer does not affect which events a read records. -/
theorem wireRead_evs (s : WireSt) : (wireRead s).2.evs = s.evs ++ [WireEv.readEv] := by
  rcases h : s.buf with _ | ⟨b, rest⟩ <;> simp [wireRead, h]

set_option maxRecDepth 4000 in
theorem byteOfInt_natCast : ∀ n : Nat, n < 256 → byteOfInt ((n : Nat) : Int) = n := by
  decide

theorem byteOfInt_mod (n : Nat) : byteOfInt (((n % 256 : Nat) : Nat) : Int) = n % 256 :=
  byteOfInt_natCast _ (Nat.mod_lt _ (by norm_num))

set_option maxRecDepth 4000 in
theorem and127_bounded : ∀ n : Nat, n < 256 →
    byteOfInt (c_and32 ((n : Nat) : Int) 0x7f) = n &&& 0x7f := by
  decide

theorem and127_mod (n : Nat) :
    byteOfInt (c_and32 (((n % 256 : Nat) : Nat) : Int) 0x7f) = n % 256 &&& 0x7f :=
  and127_bounded _ (Nat.mod_lt _ (by norm_num))

set_option maxRecDepth 4000 in
theorem and63_bounded : ∀ n : Nat, n < 256 →
    byteOfInt (c_and32 ((n : Nat) : Int) 0x3f) = n &&& 0x3f := by
  decide

theorem and63_mod (n : Nat) :
    byteOfInt (c_and32 (((n % 256 : Nat) : Nat) : Int) 0x3f) = n % 256 &&& 0x3f :=
  and63_bounded _ (Nat.mod_lt _ (by norm_num))

/-- Claim C8: every bus transaction targets the fixed peripheral address
0x68 and has a fixed length and register pointer: setDS3231time writes
register pointer 0x00 followed by exactly 7 BCD-encoded bytes in the
order second, minute, hour, day-of-week, day-of-month, month, year;
readDS3231time sets pointer 0x00 and reads exactly 7 bytes;
readDS3231temperature sets pointer 0x11 and reads exactly 2 bytes. -/
theorem bus_transactions_fixed (sc mn hr dw dm mo yr : Nat) (dev1 dev2 : List Nat) :
    (setDS3231time sc mn hr dw dm mo yr).evs =
      [WireEv.beginTx 0x68, WireEv.writeB 0, WireEv.writeB (decToBcd sc),
       WireEv.writeB (decToBcd mn), WireEv.writeB (decToBcd hr),
       WireEv.writeB (decToBcd dw), WireEv.writeB (decToBcd dm),
       WireEv.writeB (decToBcd mo), WireEv.writeB (decToBcd yr), WireEv.endTx] ∧
    (readDS3231time dev1).2.evs =
      [WireEv.beginTx 0x68, WireEv.writeB 0, WireEv.endTx, WireEv.reqFrom 0x68 7,
       WireEv.readEv, WireEv.readEv, WireEv.readEv, WireEv.readEv,
       WireEv.readEv, WireEv.readEv, WireEv.readEv] ∧
    (readDS3231temperature dev2).2.evs =
      [WireEv.beginTx 0x68, WireEv.writeB 0x11, WireEv.endTx, WireEv.reqFrom 0x68 2,
       WireEv.readEv, WireEv.readEv] := by
  refine ⟨?_, ?_, ?_⟩
  · simp [setDS3231time, wireBeginTransmission, wireWrite, wireEndTransmission,
      DS3231_I2C_ADDRESS, decToBcd_mod]
  · simp [readDS3231time, wireBeginTransmission, wireWrite, wireEndTransmission,
      wireRequestFrom, wireRead_evs, DS3231_I2C_ADDRESS]
  · simp [readDS3231temperature, wireBeginTransmission, wireWrite, wireEndTransmission,
      wireRequestFrom, wireRead_evs, DS3231_I2C_ADDRESS, DS3231_TEMPERATURE_ADDR]

/-- Claim C9: readDS3231time masks the raw seconds byte with 0x7f and
the raw hour byte with 0x3f before BCD decoding, while the minute,
day-of-week, day-of-month, month and year bytes are decoded unmasked. -/
theorem read_time_masks (b0 b1 b2 b3 b4 b5 b6 : Nat) :
    (readDS3231time [b0, b1, b2, b3, b4, b5, b6]).1 =
      ⟨bcdToDec (b0 % 256 &&& 0x7f), bcdToDec (b1 % 256), bcdToDec (b2 % 256 &&& 0x3f),
       bcdToDec (b3 % 256), bcdToDec (b4 % 256), bcdToDec (b5 % 256),
       bcdToDec (b6 % 256)⟩ := by
  simp only [readDS3231time, wireBeginTransmission, wireWrite, wireEndTransmission,
    wireRequestFrom, wireRead, List.take, List.map]
  simp only [and127_mod, and63_mod, byteOfInt_mod]

/-- Claim C10: updateTime interprets the RTC's two-digit year field as
an offset from 2000: the system time it sets has year equal to 2000 plus
the value decoded from the RTC year register. -/
theorem updateTime_year_offset (b0 b1 b2 b3 b4 b5 b6 : Nat) :
    (updateTime [b0, b1, b2, b3, b4, b5, b6]).year = 2000 + bcdToDec (b6 % 256) := by
  simp only [updateTime, setTimeSys, readDS3231time, wireBeginTransmission, wireWrite,
    wireEndTransmission, wireRequestFrom, wireRead, List.take, List.map]
  simp only [byteOfInt_mod]

/-! ## Theorems: temperature decode -/

set_option maxRecDepth 4000 in
theorem sar6_byte : ∀ l : Nat, l < 256 → byteOfInt (c_sar ((l : Nat) : Int) 6) = l >>> 6 := by
  decide

set_option maxRecDepth 4000 in
theorem and128_ne : ∀ m : Nat, m < 256 → (c_and32 ((m : Nat) : Int) 0x80 ≠ 0 ↔ 128 ≤ m) := by
  decide

set_option maxRecDepth 4000 in
theorem nint_of_neg_msb : ∀ m : Nat, m < 256 → 128 ≤ m →
    int8OfInt (c_or32 ((m : Nat) : Int) (c_not32 ((1 <<< 8 : Nat) - 1 : Nat))) =
      (m : Int) - 256 := by
  decide

set_option maxRecDepth 4000 in
theorem nint_of_pos_msb : ∀ m : Nat, m < 128 → int8OfInt ((m : Nat) : Int) = (m : Int) := by
  decide

/-- Claim C5: for every pair of raw temperature bytes (msb, lsb),
readDS3231temperature stores the msb interpreted as a two's-complement
signed 8-bit integer plus 0.25 degree per unit of the top two bits of
the lsb, truncated into an unsigned byte. -/
theorem temperature_decode (msb lsb : Nat) (h1 : msb < 256) (h2 : lsb < 256) :
    (readDS3231temperature [msb, lsb]).1 = tempSpec msb lsb := by
  have e1 : msb % 256 = msb := Nat.mod_eq_of_lt h1
  have e2 : lsb % 256 = lsb := Nat.mod_eq_of_lt h2
  simp only [readDS3231temperature, wireBeginTransmission, wireWrite, wireEndTransmission,
    wireRequestFrom, wireRead, List.take, List.map, e1, e2, tempSpec]
  rw [byteOfInt_natCast msb h1, sar6_byte lsb h2]
  by_cases hm : 128 ≤ msb
  · rw [if_pos ((and128_ne msb h1).mpr hm), nint_of_neg_msb msb h1 hm,
      if_neg (by omega : ¬ msb < 128)]
    congr 1
    push_cast
    ring
  · rw [if_neg (by simp [and128_ne msb h1]; omega), nint_of_pos_msb msb (by omega),
      if_pos (by omega : msb < 128)]
    congr 1
    push_cast
    ring

theorem temperature_decode_witness :
    200 < 256 ∧ 192 < 256 ∧ (readDS3231temperature [200, 192]).1 = tempSpec 200 192 :=
  ⟨by decide, by decide, temperature_decode 200 192 (by decide) (by decide)⟩

/-! ## Theorems: button debounce -/

theorem wsub32_eq (a b : Nat) (ha : a < 2 ^ 32) (hba : b ≤ a) : wsub32 a b = a - b := by
  unfold wsub32
  omega

theorem dbTrace_succ (input : Nat → Int × Nat × Nat) (n : Nat) :
    dbTrace input (n + 1) =
      debounceStep (dbTrace input n) (dbReading input n) (dbT1 input n) (dbT2 input n) := rfl

theorem step_lastBS (s : DbState) (r : Int) (t1 t2 : Nat) :
    (debounceStep s r t1 t2).lastButtonState = r := by
  unfold debounceStep
  dsimp only

theorem step_ldt (s : DbState) (r : Int) (t1 t2 : Nat) :
    (debounceStep s r t1 t2).lastDebounceTime =
      if r ≠ s.lastButtonState then t1 % 2 ^ 32 else s.lastDebounceTime := by
  unfold debounceStep
  dsimp only
  split_ifs <;> rfl

theorem cNot_ne (x : Int) : cNot x ≠ x := by
  unfold cNot
  split_ifs <;> omega

theorem toggle_char (s : DbState) (r : Int) (t1 t2 : Nat)
    (h : (debounceStep s r t1 t2).ledState ≠ s.ledState) :
    r = HIGH ∧ s.buttonState ≠ HIGH ∧
      wsub32 t2 ((debounceStep s r t1 t2).lastDebounceTime) > debounceDelay ∧
      (debounceStep s r t1 t2).buttonState = HIGH := by
  unfold debounceStep at *
  dsimp only at *
  split_ifs at * <;> simp_all <;> omega

theorem dbJ_step (s : DbState) (r : Int) (t1 t2 T : Nat)
    (hJ : DbJ s T) (ht1 : T ≤ t1) (hb1 : t1 < 2 ^ 32) :
    DbJ (debounceStep s r t1 t2) T := by
  have hmod : t1 % 2 ^ 32 = t1 := Nat.mod_eq_of_lt hb1
  unfold DbJ at hJ ⊢
  unfold debounceStep
  dsimp only
  split_ifs <;> simp_all <;> omega

theorem t2_mono (input : Nat → Int × Nat × Nat) (j : Nat)
    (h12 : ∀ n, n ≤ j → dbT1 input n ≤ dbT2 input n)
    (h21 : ∀ n, n < j → dbT2 input n ≤ dbT1 input (n + 1)) :
    ∀ b, b ≤ j → ∀ a, a ≤ b → dbT2 input a ≤ dbT2 input b := by
  intro b
  induction b with
  | zero =>
    intro _ a ha
    have : a = 0 := by omega
    simp [this]
  | succ m ih =>
    intro hmj a ha
    rcases Nat.lt_succ_iff_lt_or_eq.mp (by omega : a < m + 1 + 1) with h | h
    · calc dbT2 input a ≤ dbT2 input m := ih (by omega) a (by omega)
        _ ≤ dbT1 input (m + 1) := h21 m (by omega)
        _ ≤ dbT2 input (m + 1) := h12 (m + 1) hmj
    · simp [h]

theorem t2_le_t1 (input : Nat → Int × Nat × Nat) (j : Nat)
    (h12 : ∀ n, n ≤ j → dbT1 input n ≤ dbT2 input n)
    (h21 : ∀ n, n < j → dbT2 input n ≤ dbT1 input (n + 1)) :
    ∀ b, b ≤ j → ∀ a, a < b → dbT2 input a ≤ dbT1 input b := by
  intro b hb a hab
  obtain ⟨m, rfl⟩ : ∃ m, b = m + 1 := ⟨b - 1, by omega⟩
  exact le_trans (t2_mono input j h12 h21 m (by omega) a (by omega)) (h21 m (by omega))

theorem ldt_le_t2 (input : Nat → Int × Nat × Nat) (j : Nat)
    (h12 : ∀ n, n ≤ j → dbT1 input n ≤ dbT2 input n)
    (h21 : ∀ n, n < j → dbT2 input n ≤ dbT1 input (n + 1)) :
    ∀ n, n ≤ j → (dbTrace input (n + 1)).lastDebounceTime ≤ dbT2 input n := by
  intro n
  induction n with
  | zero =>
    intro h0
    rw [dbTrace_succ, step_ldt]
    split_ifs
    · exact le_trans (Nat.mod_le _ _) (h12 0 h0)
    · exact Nat.zero_le _
  | succ m ih =>
    intro hmj
    rw [dbTrace_succ, step_ldt]
    split_ifs
    · exact le_trans (Nat.mod_le _ _) (h12 (m + 1) hmj)
    · calc (dbTrace input (m + 1)).lastDebounceTime ≤ dbT2 input m := ih (by omega)
        _ ≤ dbT1 input (m + 1) := h21 m (by omega)
        _ ≤ dbT2 input (m + 1) := h12 (m + 1) hmj

theorem dbJ_after_toggle (input : Nat → Int × Nat × Nat) (j : Nat)
    (hb : ∀ n, n ≤ j → dbT1 input n < 2 ^ 32 ∧ dbT2 input n < 2 ^ 32)
    (h12 : ∀ n, n ≤ j → dbT1 input n ≤ dbT2 input n)
    (h21 : ∀ n, n < j → dbT2 input n ≤ dbT1 input (n + 1))
    (i : Nat) (hti : TogglesAt input i) :
    ∀ n, i < n → n ≤ j → DbJ (dbTrace input n) (dbT2 input i) := by
  intro n
  induction n with
  | zero => intro h1 _; exact absurd h1 (Nat.not_lt_zero i)
  | succ m ih =>
    intro h1 h2
    by_cases him : i = m
    · subst him
      have hc := toggle_char (dbTrace input i) (dbReading input i) (dbT1 input i)
        (dbT2 input i) (by rw [← dbTrace_succ]; exact hti)
      rw [dbTrace_succ]
      intro hbs _
      exact absurd hc.2.2.2 hbs
    · have hm : i < m := by omega
      rw [dbTrace_succ]
      exact dbJ_step _ _ _ _ _ (ih hm (by omega))
        (t2_le_t1 input j h12 h21 m (by omega) i hm) (hb m (by omega)).1

/-- Claim C6: the ledState latch toggles at most once per debounce
window: a toggle at iteration j happens only when the reading equals
HIGH, differs from the previously accepted buttonState, and the gate
(millis() minus the last observed change time, greater than
debounceDelay) passes; and any two toggles at iterations i < j are
separated by more than debounceDelay milliseconds, regardless of input
chatter.  The hypotheses state that the sampled millis() values are
chronological and below the 32-bit wraparound. -/
theorem debounce_at_most_one_toggle (input : Nat → Int × Nat × Nat) (j : Nat)
    (hb : ∀ n, n ≤ j → dbT1 input n < 2 ^ 32 ∧ dbT2 input n < 2 ^ 32)
    (h12 : ∀ n, n ≤ j → dbT1 input n ≤ dbT2 input n)
    (h21 : ∀ n, n < j → dbT2 input n ≤ dbT1 input (n + 1)) :
    (TogglesAt input j →
        dbReading input j = HIGH ∧ (dbTrace input j).buttonState ≠ HIGH ∧
          wsub32 (dbT2 input j) ((dbTrace input (j + 1)).lastDebounceTime) > debounceDelay) ∧
    (∀ i, i < j → TogglesAt input i → TogglesAt input j →
        dbT2 input j > dbT2 input i + debounceDelay) := by
  constructor
  · intro htj
    have hc := toggle_char (dbTrace input j) (dbReading input j) (dbT1 input j) (dbT2 input j)
      (by rw [← dbTrace_succ]; exact htj)
    rw [dbTrace_succ]
    exact ⟨hc.1, hc.2.1, hc.2.2.1⟩
  · intro i hij hti htj
    have hc := toggle_char (dbTrace input j) (dbReading input j) (dbT1 input j) (dbT2 input j)
      (by rw [← dbTrace_succ]; exact htj)
    obtain ⟨hrj, hbsj, hgate, _⟩ := hc
    rw [step_ldt] at hgate
    have hJ := dbJ_after_toggle input j hb h12 h21 i hti j hij le_rfl
    by_cases hrs : dbReading input j ≠ (dbTrace input j).lastButtonState
    · rw [if_pos hrs] at hgate
      have h1 : dbT2 input i ≤ dbT1 input j := t2_le_t1 input j h12 h21 j le_rfl i hij
      have h2 : dbT1 input j % 2 ^ 32 = dbT1 input j := Nat.mod_eq_of_lt (hb j le_rfl).1
      have h3 : wsub32 (dbT2 input j) (dbT1 input j) = dbT2 input j - dbT1 input j :=
        wsub32_eq _ _ (hb j le_rfl).2 (h12 j le_rfl)
      rw [h2, h3] at hgate
      have h4 := h12 j le_rfl
      unfold debounceDelay at *
      omega
    · push_neg at hrs
      rw [if_neg (not_ne_iff.mpr hrs)] at hgate
      have hlast : (dbTrace input j).lastButtonState = HIGH := by rw [← hrs, hrj]
      have hT : dbT2 input i ≤ (dbTrace input j).lastDebounceTime := hJ hbsj hlast
      obtain ⟨m, rfl⟩ : ∃ m, j = m + 1 := ⟨j - 1, by omega⟩
      have hld : (dbTrace input (m + 1)).lastDebounceTime ≤ dbT2 input m :=
        ldt_le_t2 input (m + 1) h12 h21 m (by omega)
      have hld2 : (dbTrace input (m + 1)).lastDebounceTime ≤ dbT2 input (m + 1) :=
        le_trans hld (le_trans (h21 m (by omega)) (h12 (m + 1) le_rfl))
      have h3 : wsub32 (dbT2 input (m + 1)) ((dbTrace input (m + 1)).lastDebounceTime)
          = dbT2 input (m + 1) - (dbTrace input (m + 1)).lastDebounceTime :=
        wsub32_eq _ _ (hb (m + 1) le_rfl).2 hld2
      rw [h3] at hgate
      unfold debounceDelay at *
      omega

set_option maxRecDepth 4000 in
theorem debounce_at_most_one_toggle_witness :
    TogglesAt dbWitnessInput 2 ∧ TogglesAt dbWitnessInput 8 ∧
      dbT2 dbWitnessInput 8 > dbT2 dbWitnessInput 2 + debounceDelay :=
  ⟨by unfold TogglesAt; decide, by unfold TogglesAt; decide,
    (debounce_at_most_one_toggle dbWitnessInput 8
      (by decide) (by decide) (by decide)).2 2 (by decide)
      (by unfold TogglesAt; decide) (by unfold TogglesAt; decide)⟩
